import Mathlib

/-!
Shallow embedding of the credit-ledger / payment subsystem of the
`entrevista-api` repository (files `src/credits/routes.ts` and
`src/payments/routes.ts`), together with proofs about the claims on it.

Database rows are modelled as Lean structures, the database state as lists
of rows, and each route handler as a pure function from state (plus the
request inputs and the responses of the external Stripe collaborator) to a
reply and a new state.  `prisma.$transaction` blocks are modelled as the
corresponding compound state update (all-or-nothing); a thrown exception
caught by a handler's `catch` is modelled as an error reply with the state
unchanged.
-/

namespace EntrevistaApi

/-- Transaction `type` column (Prisma enum). -/
inductive TxType
  | PURCHASE
  | CONSUMPTION
  | REFUND
  | BONUS
deriving DecidableEq, Repr

/-- Transaction `status` column (Prisma enum). -/
inductive TxStatus
  | PENDING
  | COMPLETED
  | FAILED
  | CANCELLED
deriving DecidableEq, Repr

/-- The JSON `metadata` column: a key-value map, modelled as an association
list.  Only the key-to-value mapping is meaningful (JSON object member
order is irrelevant to every reader in the source). -/
abbrev Metadata := List (String × String)

/-- Look a key up in a metadata map (first binding wins, as in a JS object
where keys are unique). -/
def Metadata.get (m : Metadata) (k : String) : Option String :=
  (m.find? (fun p => p.1 == k)).map (fun p => p.2)

/-- JS object spread `{...old, ...upd}`: the result maps `k` to `upd`'s
value when `upd` has `k`, and to `old`'s value otherwise.  Keys of `old`
that reappear in `upd` are dropped from the `old` part so that each key has
one binding. -/
def Metadata.merge (old upd : Metadata) : Metadata :=
  old.filter (fun p => (Metadata.get upd p.1).isNone) ++ upd

/-- A row of the `User` table, restricted to the columns the ledger
subsystem reads and writes (`id`, `credits`).  `credits` is an `Int`
column in the schema. -/
structure User where
  id : Nat
  credits : Int
deriving DecidableEq, Repr

/-- A row of the `CreditTransaction` table, restricted to the columns the
ledger subsystem uses.  The `price` Decimal column is not modelled: no
claim concerns it.  A `null` JSON metadata cell is modelled as `[]`. -/
structure CreditTransaction where
  id : Nat
  type : TxType
  status : TxStatus
  amount : Int
  userId : Nat
  jobId : Option Nat := none
  paymentId : Option String := none
  metadata : Metadata := []
deriving DecidableEq, Repr

/-- The ledger database state: the `User` and `CreditTransaction` tables,
plus the id generator for new transaction rows. -/
structure LedgerState where
  users : List User
  txs : List CreditTransaction
  nextTxId : Nat
deriving DecidableEq, Repr

/-- `prisma.user.findUnique({ where: { id } })`. -/
def findUser (s : LedgerState) (uid : Nat) : Option User :=
  s.users.find? (fun u => u.id == uid)

/-- `prisma.creditTransaction.findUnique({ where: { id } })`. -/
def findTx (s : LedgerState) (tid : Nat) : Option CreditTransaction :=
  s.txs.find? (fun t => t.id == tid)

/-- Generic in-place row update of a keyed table, used for both
`user.update` and `creditTransaction.update`. -/
def updRows {α : Type} (key : α → Nat) (k : Nat) (f : α → α) (l : List α) : List α :=
  l.map (fun a => if key a == k then f a else a)

/-- `prisma.user.update({ where: { id: uid }, data: ... })`. -/
def updateUser (s : LedgerState) (uid : Nat) (f : User → User) : LedgerState :=
  { s with users := updRows User.id uid f s.users }

/-- `prisma.creditTransaction.update({ where: { id: tid }, data: ... })`. -/
def updateTx (s : LedgerState) (tid : Nat) (f : CreditTransaction → CreditTransaction) :
    LedgerState :=
  { s with txs := updRows CreditTransaction.id tid f s.txs }

/-- `prisma.creditTransaction.create`: the new row gets the next fresh id
and is appended to the table. -/
def insertTx (s : LedgerState) (mk : Nat → CreditTransaction) :
    CreditTransaction × LedgerState :=
  let t := mk s.nextTxId
  (t, { s with txs := s.txs ++ [t], nextTxId := s.nextTxId + 1 })

/-- `getCreditsCost` from `src/credits/routes.ts`.  The source looks the
type up in the object `{TEXT: 1, VOICE: 2, AVATAR: 3}` and applies `|| 1`
for a missing key (all present values are nonzero, so `|| 1` fires exactly
on unrecognized types); interviews longer than 30 minutes cost double. -/
def getCreditsCost (interviewType : String) (durationMinutes : Nat) : Nat :=
  let baseCost : Nat :=
    if interviewType == "TEXT" then 1
    else if interviewType == "VOICE" then 2
    else if interviewType == "AVATAR" then 3
    else 1
  if durationMinutes > 30 then baseCost * 2 else baseCost

/-! ## The credits routes (`src/credits/routes.ts`) -/

/-- Reply of `POST /credits/consume`. -/
inductive ConsumeReply
  | notFound
  | insufficient (required : Nat) (available : Int)
  | ok (transactionId : Nat) (creditsUsed : Nat) (remainingCredits : Int)
deriving DecidableEq, Repr

/-- The `POST /credits/consume` handler: check the user exists and has at
least `getCreditsCost ...` credits, then in one `prisma.$transaction`
decrement the balance and create a COMPLETED CONSUMPTION row with the
negated cost and the job reference. -/
def consume (s : LedgerState) (userId jobId : Nat) (interviewType : String)
    (durationMinutes : Nat) : ConsumeReply × LedgerState :=
  let creditsCost := getCreditsCost interviewType durationMinutes
  match findUser s userId with
  | none => (.notFound, s)
  | some user =>
    if user.credits < (creditsCost : Int) then
      (.insufficient creditsCost user.credits, s)
    else
      let s1 := updateUser s userId (fun u => { u with credits := u.credits - creditsCost })
      let ts2 := insertTx s1 (fun tid =>
        { id := tid, type := .CONSUMPTION, status := .COMPLETED,
          amount := -(creditsCost : Int), userId := userId, jobId := some jobId })
      (.ok ts2.1.id creditsCost (user.credits - creditsCost), ts2.2)

/-- Reply of `POST /credits/:userId/add-bonus`.  A missing user makes the
`user.update` inside the `$transaction` throw; the rolled-back unit plus
the handler's `catch` is the `internalError` reply with the state
unchanged. -/
inductive BonusReply
  | internalError
  | ok (transactionId : Nat) (creditsAdded : Nat) (newBalance : Int)
deriving DecidableEq, Repr

/-- The `POST /credits/:userId/add-bonus` handler (the schema validates
`credits` as an integer of at least 1, hence `Nat`): one `$transaction`
incrementing the balance and creating a COMPLETED BONUS row with the
reason in metadata. -/
def addBonus (s : LedgerState) (userId : Nat) (credits : Nat) (reason : String) :
    BonusReply × LedgerState :=
  match findUser s userId with
  | none => (.internalError, s)
  | some user =>
    let s1 := updateUser s userId (fun u => { u with credits := u.credits + credits })
    let ts2 := insertTx s1 (fun tid =>
      { id := tid, type := .BONUS, status := .COMPLETED, amount := (credits : Int),
        userId := userId, metadata := [("reason", reason)] })
    (.ok ts2.1.id credits (user.credits + credits), ts2.2)

/-! ## The Stripe collaborator data used by the payments routes -/

/-- The fields of a `stripe.prices.retrieve` result that the create-intent
handler reads. -/
structure StripePrice where
  active : Bool
  unitAmount : Int
  currency : String
deriving DecidableEq, Repr

/-- The fields of a `stripe.products.retrieve` result that the
create-intent handler reads.  `metaCredits = some n` models
`metadata.credits` being present (truthy) with `parseInt` returning `n`;
note `parseInt` also returns negative integers.  `metaCredits = none`
models the metadata key being absent or empty. -/
structure StripeProduct where
  id : String
  name : String
  active : Bool
  metaCredits : Option Int
deriving DecidableEq, Repr

/-- The fields of a `stripe.paymentIntents.create` result that the
create-intent handler stores. -/
structure GatewayCreateIntent where
  id : String
  clientSecret : String
deriving DecidableEq, Repr

/-- The responses of the Stripe collaborator during one run of the
create-intent handler.  `none` for `price`/`product` models the retrieve
call throwing (price or product does not exist); `none` for `createResult`
models `stripe.paymentIntents.create` throwing. -/
structure CreateIntentEnv where
  price : Option StripePrice
  product : Option StripeProduct
  createResult : Option GatewayCreateIntent
deriving DecidableEq, Repr

/-- The hardcoded `priceMapping` fallback of the create-intent handler. -/
def priceMapping (priceId : String) : Option Nat :=
  if priceId == "price_1SLDj8HVh8rgC6cSrwxsHLhw" then some 10
  else if priceId == "price_1234567890" then some 10
  else if priceId == "price_0987654321" then some 50
  else if priceId == "price_1122334455" then some 100
  else none

/-- The `creditsAmount` computation of the create-intent handler:
`parseInt(product.metadata.credits)` when the metadata key is set,
otherwise `priceMapping[priceId] || 0`. -/
def computeCreditsAmount (metaCredits : Option Int) (priceId : String) : Int :=
  match metaCredits with
  | some n => n
  | none => ((priceMapping priceId).getD 0 : Nat)

/-- The `payment_intent.status` values the handlers distinguish: the
confirm handler branches on `succeeded`, then on
`requires_payment_method`/`requires_confirmation`, and treats every other
value (`processing`, `canceled`, ...) as a failure. -/
inductive StripeStatus
  | succeeded
  | requires_payment_method
  | requires_confirmation
  | processing
  | canceled
deriving DecidableEq, Repr

/-- The string form of a payment-intent status, as written into
`metadata.stripeStatus`. -/
def StripeStatus.str : StripeStatus → String
  | .succeeded => "succeeded"
  | .requires_payment_method => "requires_payment_method"
  | .requires_confirmation => "requires_confirmation"
  | .processing => "processing"
  | .canceled => "canceled"

/-- The fields of a Stripe payment-intent object that the confirm handler
and the webhook handlers read.  `transactionId` is the
`metadata.transactionId` echo tag. -/
structure PaymentIntent where
  id : String
  status : StripeStatus
  transactionId : Option Nat
  clientSecret : Option String
  lastPaymentErrorMessage : Option String
deriving DecidableEq, Repr

/-- `paymentIntent.last_payment_error?.message || "Payment failed"` (JS
`||` treats the empty string as falsy). -/
def failureReasonOf (pi : PaymentIntent) : String :=
  match pi.lastPaymentErrorMessage with
  | some m => if m == "" then "Payment failed" else m
  | none => "Payment failed"

/-! ## The payments routes (`src/payments/routes.ts`) -/

/-- Reply of `POST /payments/create-intent` (`gatewayError` is a Stripe
call throwing, caught by the handler as a 500). -/
inductive CreateIntentReply
  | userNotFound
  | gatewayError
  | priceInactive
  | productInactive
  | zeroCredits
  | ok (transactionId : Nat) (clientSecret : String)
deriving DecidableEq, Repr

/-- The `POST /payments/create-intent` handler: after the user and the
price/product checks, it first commits the PENDING PURCHASE row, then
calls `stripe.paymentIntents.create`, and only then stores the payment
intent id (`paymentId`) and client secret into the row.  `now` is the ISO
timestamp the handler writes into `metadata.createdAt`. -/
def createIntent (env : CreateIntentEnv) (s : LedgerState) (userId : Nat)
    (priceId now : String) : CreateIntentReply × LedgerState :=
  match findUser s userId with
  | none => (.userNotFound, s)
  | some _user =>
    match env.price with
    | none => (.gatewayError, s)
    | some price =>
      if !price.active then (.priceInactive, s)
      else
        match env.product with
        | none => (.gatewayError, s)
        | some product =>
          if !product.active then (.productInactive, s)
          else
            let creditsAmount := computeCreditsAmount product.metaCredits priceId
            if creditsAmount = 0 then (.zeroCredits, s)
            else
              let ts1 := insertTx s (fun tid =>
                { id := tid, type := .PURCHASE, status := .PENDING,
                  amount := creditsAmount, userId := userId,
                  metadata := [("stripeProductId", product.id),
                               ("stripePriceId", priceId),
                               ("productName", product.name),
                               ("createdAt", now)] })
              match env.createResult with
              | none => (.gatewayError, ts1.2)
              | some intent =>
                let s2 := updateTx ts1.2 ts1.1.id (fun t =>
                  { t with paymentId := some intent.id,
                           metadata := Metadata.merge ts1.1.metadata
                             [("stripePaymentIntentId", intent.id),
                              ("stripeClientSecret", intent.clientSecret)] })
                (.ok ts1.1.id intent.clientSecret, s2)

/-- Reply of `POST /payments/confirm`. -/
inductive ConfirmReply
  | internalError
  | noTransactionRef
  | txNotFound
  | alreadyProcessed (currentStatus : TxStatus)
  | ok (transactionId : Nat) (creditsPurchased : Int) (newBalance : Int)
  | stillPending (status : StripeStatus)
  | paymentFailed (transactionId : Nat)
deriving DecidableEq, Repr

/-- The `POST /payments/confirm` handler.  `retrieved` is the result of
`stripe.paymentIntents.retrieve` (`none` models it throwing).  A
transaction that is no longer PENDING is answered without any state
change; a `succeeded` intent credits the balance and completes the row in
one `$transaction`; `requires_payment_method`/`requires_confirmation`
change nothing; any other gateway status marks the row FAILED, merging the
failure metadata over the previously fetched row metadata. -/
def confirm (retrieved : Option PaymentIntent) (s : LedgerState) (now : String) :
    ConfirmReply × LedgerState :=
  match retrieved with
  | none => (.internalError, s)
  | some pi =>
    match pi.transactionId with
    | none => (.noTransactionRef, s)
    | some tid =>
      match findTx s tid with
      | none => (.txNotFound, s)
      | some tx =>
        if tx.status ≠ .PENDING then (.alreadyProcessed tx.status, s)
        else
          match pi.status with
          | .succeeded =>
            match findUser s tx.userId with
            | none => (.internalError, s)
            | some user =>
              let s1 := updateUser s tx.userId
                (fun u => { u with credits := u.credits + tx.amount })
              let s2 := updateTx s1 tid (fun t =>
                { t with status := .COMPLETED,
                         metadata := Metadata.merge tx.metadata
                           [("completedAt", now),
                            ("stripePaymentIntentId", pi.id),
                            ("stripeStatus", pi.status.str)] })
              (.ok tid tx.amount (user.credits + tx.amount), s2)
          | .requires_payment_method => (.stillPending pi.status, s)
          | .requires_confirmation => (.stillPending pi.status, s)
          | _ =>
            let s1 := updateTx s tid (fun t =>
              { t with status := .FAILED,
                       metadata := Metadata.merge tx.metadata
                         [("failedAt", now),
                          ("stripePaymentIntentId", pi.id),
                          ("stripeStatus", pi.status.str),
                          ("failureReason", failureReasonOf pi)] })
            (.paymentFailed tid, s1)

/-- `reason || "User cancelled"` of the cancel handler (JS `||`: a missing
or empty reason falls back to the default). -/
def cancellationReasonOf (reason : Option String) : String :=
  match reason with
  | some r => if r == "" then "User cancelled" else r
  | none => "User cancelled"

/-- Reply of `POST /payments/cancel`. -/
inductive CancelReply
  | txNotFound
  | invalidState (currentStatus : TxStatus)
  | ok (transactionId : Nat)
deriving DecidableEq, Repr

/-- The `POST /payments/cancel` handler: only a PENDING transaction may be
cancelled; cancellation merges the timestamp and reason into the row
metadata and never touches any balance. -/
def cancel (s : LedgerState) (transactionId : Nat) (reason : Option String)
    (now : String) : CancelReply × LedgerState :=
  match findTx s transactionId with
  | none => (.txNotFound, s)
  | some tx =>
    if tx.status ≠ .PENDING then (.invalidState tx.status, s)
    else
      let s1 := updateTx s transactionId (fun t =>
        { t with status := .CANCELLED,
                 metadata := Metadata.merge tx.metadata
                   [("cancelledAt", now),
                    ("cancellationReason", cancellationReasonOf reason)] })
      (.ok transactionId, s1)

/-- `handlePaymentIntentSucceeded` of the webhook: resolve the transaction
via the echoed `metadata.transactionId`; a missing reference, a missing
row, or a non-PENDING status leaves the state untouched; otherwise one
`$transaction` credits the balance and completes the row (a missing user
row makes the unit roll back, leaving the state untouched). -/
def handlePaymentIntentSucceeded (s : LedgerState) (pi : PaymentIntent)
    (now : String) : LedgerState :=
  match pi.transactionId with
  | none => s
  | some tid =>
    match findTx s tid with
    | none => s
    | some tx =>
      if tx.status ≠ .PENDING then s
      else
        match findUser s tx.userId with
        | none => s
        | some _user =>
          let s1 := updateUser s tx.userId
            (fun u => { u with credits := u.credits + tx.amount })
          updateTx s1 tid (fun t =>
            { t with status := .COMPLETED,
                     metadata := Metadata.merge tx.metadata
                       [("webhookProcessedAt", now),
                        ("stripePaymentIntentId", pi.id),
                        ("stripeStatus", pi.status.str)] })

/-- `handlePaymentIntentFailed` of the webhook.  Unlike its `Succeeded`
sibling, the source performs a direct `creditTransaction.update` with
neither a status check nor a spread of the prior metadata: it sets FAILED
whatever the current status is, and the new metadata object wholesale
replaces the old one.  An update on a missing row throws (the webhook
answers 500) and changes nothing. -/
def handlePaymentIntentFailed (s : LedgerState) (pi : PaymentIntent)
    (now : String) : LedgerState :=
  match pi.transactionId with
  | none => s
  | some tid =>
    match findTx s tid with
    | none => s
    | some _tx =>
      updateTx s tid (fun t =>
        { t with status := .FAILED,
                 metadata := [("webhookProcessedAt", now),
                              ("stripePaymentIntentId", pi.id),
                              ("stripeStatus", pi.status.str),
                              ("failureReason", failureReasonOf pi)] })

/-- The event kinds a webhook delivery can carry into the dispatch
switch. -/
inductive WebhookEvent
  | paymentIntentSucceeded (pi : PaymentIntent)
  | paymentIntentFailed (pi : PaymentIntent)
  | otherEvent (eventType : String)
deriving DecidableEq, Repr

/-- Reply of `POST /payments/webhook`. -/
inductive WebhookReply
  | secretMissing
  | signatureFailed
  | received
deriving DecidableEq, Repr

/-- The `POST /payments/webhook` handler: a missing
`STRIPE_WEBHOOK_SECRET` is a 500 before anything else; then
`stripe.webhooks.constructEvent` verifies the signature (`sigValid` is its
verdict) and a failed verification is a 400 — both before any database
access.  Only then is the event dispatched. -/
def webhook (secretConfigured sigValid : Bool) (s : LedgerState)
    (ev : WebhookEvent) (now : String) : WebhookReply × LedgerState :=
  if !secretConfigured then (.secretMissing, s)
  else if !sigValid then (.signatureFailed, s)
  else
    match ev with
    | .paymentIntentSucceeded pi => (.received, handlePaymentIntentSucceeded s pi now)
    | .paymentIntentFailed pi => (.received, handlePaymentIntentFailed s pi now)
    | .otherEvent _ => (.received, s)

/-! ## Operation sequences over the ledger -/

/-- One inbound call into the ledger subsystem, with the collaborator
responses it observed. -/
inductive Op
  | opConsume (userId jobId : Nat) (interviewType : String) (durationMinutes : Nat)
  | opCreateIntent (env : CreateIntentEnv) (userId : Nat) (priceId now : String)
  | opConfirm (retrieved : Option PaymentIntent) (now : String)
  | opCancel (transactionId : Nat) (reason : Option String) (now : String)
  | opAddBonus (userId : Nat) (credits : Nat) (reason : String)
  | opWebhook (secretConfigured sigValid : Bool) (ev : WebhookEvent) (now : String)

/-- The state reached after one operation. -/
def step (s : LedgerState) : Op → LedgerState
  | .opConsume u j ty d => (consume s u j ty d).2
  | .opCreateIntent env u p n => (createIntent env s u p n).2
  | .opConfirm pi n => (confirm pi s n).2
  | .opCancel t r n => (cancel s t r n).2
  | .opAddBonus u c r => (addBonus s u c r).2
  | .opWebhook sc sv ev n => (webhook sc sv s ev n).2

/-- The state reached after a sequence of operations. -/
def run (s : LedgerState) (ops : List Op) : LedgerState :=
  ops.foldl step s

/-! ## Well-formedness of the database state

`RowIdsOk` packages what the database schema enforces: `id` is a primary
key of both tables (pairwise distinct), and the id generator is fresh for
the transaction table. -/

/-- Primary-key discipline of the two tables. -/
def RowIdsOk (s : LedgerState) : Prop :=
  s.users.Pairwise (fun a b => a.id ≠ b.id) ∧
  s.txs.Pairwise (fun a b => a.id ≠ b.id) ∧
  ∀ t ∈ s.txs, t.id < s.nextTxId

/-- The balance invariant together with the fact that every PENDING row
has a non-negative amount (what a successful confirmation would add). -/
def CreditsInv (s : LedgerState) : Prop :=
  (∀ u ∈ s.users, 0 ≤ u.credits) ∧
  (∀ t ∈ s.txs, t.status = .PENDING → 0 ≤ t.amount)

/-- The full state invariant used for the balance-non-negativity claim. -/
def Inv (s : LedgerState) : Prop :=
  RowIdsOk s ∧ CreditsInv s

/-- A purchase-intent operation whose gateway product metadata does not
parse to a negative credits amount; other operations are unconstrained.
The source checks `creditsAmount === 0` only, so this is a genuine extra
assumption. -/
def opOk : Op → Bool
  | .opCreateIntent env _ priceId _ =>
    match env.product with
    | some p => decide (0 ≤ computeCreditsAmount p.metaCredits priceId)
    | none => true
  | _ => true

instance decRowIdsOk (s : LedgerState) : Decidable (RowIdsOk s) := by
  unfold RowIdsOk
  infer_instance

instance decCreditsInv (s : LedgerState) : Decidable (CreditsInv s) := by
  unfold CreditsInv
  infer_instance

instance decInv (s : LedgerState) : Decidable (Inv s) := by
  unfold Inv
  infer_instance

/-- The base-cost table in the spec's words (reference definition for the
refinement statement about `getCreditsCost`): TEXT costs 1, VOICE 2,
AVATAR 3, and an unrecognized type defaults to 1. -/
def specBaseCost (interviewType : String) : Nat :=
  if interviewType = "TEXT" then 1
  else if interviewType = "VOICE" then 2
  else if interviewType = "AVATAR" then 3
  else 1

/-- One application of a successful gateway confirmation, via either of the
two entry points that converge on the same transition: the verified
webhook delivery of a `payment_intent.succeeded` event, or the
client-confirmation call observing a succeeded payment intent. -/
def applySuccess (viaWebhook : Bool) (pi : PaymentIntent) (now : String)
    (s : LedgerState) : LedgerState :=
  if viaWebhook then (webhook true true s (.paymentIntentSucceeded pi) now).2
  else (confirm (some pi) s now).2

/-- The completion metadata written by the entry point chosen in
`applySuccess` for a succeeded payment intent (the webhook writes
`webhookProcessedAt`, the confirm call `completedAt`). -/
def successMeta (viaWebhook : Bool) (piId now : String) : Metadata :=
  if viaWebhook then
    [("webhookProcessedAt", now), ("stripePaymentIntentId", piId),
     ("stripeStatus", "succeeded")]
  else
    [("completedAt", now), ("stripePaymentIntentId", piId),
     ("stripeStatus", "succeeded")]

/-! ## Concrete example data used by witnesses and counterexamples -/

/-- A ledger with one PENDING purchase of 10 credits for user 1. -/
def exPendingState : LedgerState :=
  { users := [{ id := 1, credits := 5 }],
    txs := [{ id := 0, type := .PURCHASE, status := .PENDING, amount := 10,
              userId := 1, paymentId := some "pi_1",
              metadata := [("stripeProductId", "prod_1")] }],
    nextTxId := 1 }

/-- A succeeded payment intent echoing transaction 0. -/
def exSucceededIntent : PaymentIntent :=
  { id := "pi_1", status := .succeeded, transactionId := some 0,
    clientSecret := none, lastPaymentErrorMessage := none }

/-- A ledger whose purchase transaction 0 is already COMPLETED. -/
def exCompletedState : LedgerState :=
  { users := [{ id := 1, credits := 10 }],
    txs := [{ id := 0, type := .PURCHASE, status := .COMPLETED, amount := 5,
              userId := 1, paymentId := some "pi_1",
              metadata := [("stripeProductId", "prod_1"),
                           ("completedAt", "t1")] }],
    nextTxId := 1 }

/-- A failed payment intent echoing transaction 0. -/
def exFailedIntent : PaymentIntent :=
  { id := "pi_1", status := .canceled, transactionId := some 0,
    clientSecret := none, lastPaymentErrorMessage := some "card declined" }

/-- A one-user ledger with balance 0 and no transactions. -/
def exEmptyState : LedgerState :=
  { users := [{ id := 1, credits := 0 }], txs := [], nextTxId := 0 }

/-- A gateway run in which price and product exist and are active but
`stripe.paymentIntents.create` throws. -/
def exGatewayFailEnv : CreateIntentEnv :=
  { price := some { active := true, unitAmount := 1000, currency := "brl" },
    product := some { id := "prod_1", name := "Pack", active := true,
                      metaCredits := some 10 },
    createResult := none }

/-- A gateway run whose product metadata `credits` parses to the negative
integer -5 (e.g. the Stripe product is configured with
`metadata.credits = "-5"`); everything else succeeds. -/
def exNegativeCreditsEnv : CreateIntentEnv :=
  { price := some { active := true, unitAmount := 1000, currency := "brl" },
    product := some { id := "prod_n", name := "Neg", active := true,
                      metaCredits := some (-5) },
    createResult := some { id := "pi_9", clientSecret := "sec_9" } }

/-- The operation sequence breaking balance non-negativity: create an
intent whose gateway metadata parses to -5 credits (the handler rejects
only the exact value 0), then deliver its succeeded webhook. -/
def exNegativeOps : List Op :=
  [.opCreateIntent exNegativeCreditsEnv 1 "price_x" "t0",
   .opWebhook true true
     (.paymentIntentSucceeded
       { id := "pi_9", status := .succeeded, transactionId := some 0,
         clientSecret := none, lastPaymentErrorMessage := none }) "t1"]

/-- A gateway run that fully succeeds and grants 10 credits. -/
def exGoodEnv : CreateIntentEnv :=
  { price := some { active := true, unitAmount := 1000, currency := "brl" },
    product := some { id := "prod_g", name := "Good", active := true,
                      metaCredits := some 10 },
    createResult := some { id := "pi_A", clientSecret := "sec_A" } }

/-- A mixed operation sequence exercising every entry point: consume,
bonus, intent creation, its succeeded webhook, and a (rejected) late
cancel. -/
def exMixedOps : List Op :=
  [.opConsume 1 9 "TEXT" 10,
   .opAddBonus 1 20 "promo",
   .opCreateIntent exGoodEnv 1 "price_x" "t0",
   .opWebhook true true
     (.paymentIntentSucceeded
       { id := "pi_A", status := .succeeded, transactionId := some 2,
         clientSecret := none, lastPaymentErrorMessage := none }) "t1",
   .opCancel 2 none "t2"]

/-- A one-user ledger with 5 credits and no transactions. -/
def exFiveState : LedgerState :=
  { users := [{ id := 1, credits := 5 }], txs := [], nextTxId := 0 }

/-! ## Generic lemmas about keyed row tables -/

section RowLemmas

variable {α : Type} {key : α → Nat}

theorem key_updRows_entry (k : Nat) (f : α → α) (hf : ∀ a, key (f a) = key a)
    (a : α) : key (if key a == k then f a else a) = key a := by
  by_cases h : key a = k
  · rw [if_pos (by simpa using h), hf]
  · rw [if_neg (by simpa using h)]

theorem find?_updRows_self (l : List α) (k : Nat) (f : α → α)
    (hf : ∀ a, key (f a) = key a) :
    (updRows key k f l).find? (fun a => key a == k) =
      (l.find? (fun a => key a == k)).map f := by
  induction l with
  | nil => rfl
  | cons a l ih =>
    simp only [updRows, List.map_cons] at ih ⊢
    by_cases h : key a = k
    · rw [if_pos (by simpa using h)]
      rw [List.find?_cons_of_pos _ (by simp [hf, h]),
          List.find?_cons_of_pos _ (by simp [h])]
      rfl
    · rw [if_neg (by simpa using h)]
      rw [List.find?_cons_of_neg _ (by simp [h]),
          List.find?_cons_of_neg _ (by simp [h])]
      exact ih

theorem mem_updRows {l : List α} {k : Nat} {f : α → α} {a : α}
    (ha : a ∈ updRows key k f l) :
    (∃ b, b ∈ l ∧ key b = k ∧ a = f b) ∨ a ∈ l := by
  rcases List.mem_map.mp ha with ⟨b, hb, hba⟩
  by_cases h : key b = k
  · left
    refine ⟨b, hb, h, ?_⟩
    rw [← hba, if_pos (by simpa using h)]
  · right
    rw [← hba, if_neg (by simpa using h)]
    exact hb

theorem pairwise_updRows (l : List α) (k : Nat) (f : α → α)
    (hf : ∀ a, key (f a) = key a)
    (h : l.Pairwise (fun a b => key a ≠ key b)) :
    (updRows key k f l).Pairwise (fun a b => key a ≠ key b) := by
  unfold updRows
  rw [List.pairwise_map]
  refine h.imp_of_mem ?_
  intro a b _ _ hab
  rw [key_updRows_entry k f hf a, key_updRows_entry k f hf b]
  exact hab

theorem mem_key_unique {l : List α}
    (hp : l.Pairwise (fun a b => key a ≠ key b)) {x y : α}
    (hx : x ∈ l) (hy : y ∈ l) (hkey : key x = key y) : x = y := by
  induction l with
  | nil => cases hx
  | cons a l ih =>
    rcases List.pairwise_cons.mp hp with ⟨ha, hl⟩
    rcases List.mem_cons.mp hx with hx1 | hx1 <;>
      rcases List.mem_cons.mp hy with hy1 | hy1
    · exact hx1.trans hy1.symm
    · exact absurd (hx1 ▸ hkey) (ha y hy1)
    · exact absurd (hy1 ▸ hkey.symm) (ha x hx1)
    · exact ih hl hx1 hy1

end RowLemmas

/-! ## Lemmas about the state primitives -/

theorem findTx_updateUser (s : LedgerState) (uid : Nat) (f : User → User)
    (tid : Nat) : findTx (updateUser s uid f) tid = findTx s tid := rfl

theorem findUser_updateTx (s : LedgerState) (tid : Nat)
    (f : CreditTransaction → CreditTransaction) (uid : Nat) :
    findUser (updateTx s tid f) uid = findUser s uid := rfl

theorem findTx_updateTx (s : LedgerState) (tid : Nat)
    (f : CreditTransaction → CreditTransaction)
    (hf : ∀ t, (f t).id = t.id) :
    findTx (updateTx s tid f) tid = (findTx s tid).map f :=
  find?_updRows_self s.txs tid f hf

theorem findUser_updateUser (s : LedgerState) (uid : Nat) (f : User → User)
    (hf : ∀ u, (f u).id = u.id) :
    findUser (updateUser s uid f) uid = (findUser s uid).map f :=
  find?_updRows_self s.users uid f hf

/-- A key set by the update part of a merge is present with the update's
value in the merged metadata. -/
theorem Metadata.get_merge_right (old upd : Metadata) (k v : String)
    (h : Metadata.get upd k = some v) :
    Metadata.get (Metadata.merge old upd) k = some v := by
  have hnone :
      (old.filter (fun p => (Metadata.get upd p.1).isNone)).find?
        (fun p => p.1 == k) = none := by
    rw [List.find?_eq_none]
    intro p hp hpk
    have h2 := (List.mem_filter.mp hp).2
    have hk : p.1 = k := by simpa using hpk
    rw [hk, h] at h2
    simp at h2
  show ((Metadata.merge old upd).find? (fun p => p.1 == k)).map (fun p => p.2) = some v
  rw [Metadata.merge, List.find?_append, hnone]
  simpa [Metadata.get] using h

/-! ## Preservation of the state invariant -/

theorem inv_updateUser_add (s : LedgerState) (uid : Nat) (d : Int) (hd : 0 ≤ d)
    (h : Inv s) :
    Inv (updateUser s uid (fun u => { u with credits := u.credits + d })) := by
  obtain ⟨⟨hpu, hpt, hbound⟩, hcred, hpend⟩ := h
  refine ⟨⟨pairwise_updRows _ _ _ (fun u => rfl) hpu, hpt, hbound⟩, ?_, hpend⟩
  intro u hu
  rcases mem_updRows hu with ⟨b, hb, -, rfl⟩ | hu2
  · have := hcred b hb
    simp only
    omega
  · exact hcred u hu2

theorem inv_updateUser_sub (s : LedgerState) (uid : Nat) (c : Nat) (user : User)
    (hfind : findUser s uid = some user) (hge : (c : Int) ≤ user.credits)
    (h : Inv s) :
    Inv (updateUser s uid (fun u => { u with credits := u.credits - c })) := by
  obtain ⟨⟨hpu, hpt, hbound⟩, hcred, hpend⟩ := h
  refine ⟨⟨pairwise_updRows _ _ _ (fun u => rfl) hpu, hpt, hbound⟩, ?_, hpend⟩
  intro u hu
  rcases mem_updRows hu with ⟨b, hb, hbk, rfl⟩ | hu2
  · have huser : user ∈ s.users := List.mem_of_find?_eq_some hfind
    have hukey : user.id = uid := by simpa using List.find?_some hfind
    have hbu : b = user := mem_key_unique hpu hb huser (hbk.trans hukey.symm)
    subst hbu
    simp only
    omega
  · exact hcred u hu2

theorem inv_updateTx_mk (s : LedgerState) (tid : Nat)
    (f : CreditTransaction → CreditTransaction)
    (hid : ∀ t, (f t).id = t.id)
    (hpend : ∀ t, t ∈ s.txs → (f t).status = .PENDING → 0 ≤ (f t).amount)
    (h : Inv s) : Inv (updateTx s tid f) := by
  obtain ⟨⟨hpu, hpt, hbound⟩, hcred, hpend0⟩ := h
  refine ⟨⟨hpu, pairwise_updRows _ _ _ hid hpt, ?_⟩, hcred, ?_⟩
  · intro t ht
    rcases mem_updRows ht with ⟨b, hb, -, rfl⟩ | ht2
    · rw [hid]
      exact hbound b hb
    · exact hbound t ht2
  · intro t ht
    rcases mem_updRows ht with ⟨b, hb, -, rfl⟩ | ht2
    · exact hpend b hb
    · exact hpend0 t ht2

theorem inv_insertTx (s : LedgerState) (mk : Nat → CreditTransaction)
    (hid : (mk s.nextTxId).id = s.nextTxId)
    (hstat : (mk s.nextTxId).status = .PENDING → 0 ≤ (mk s.nextTxId).amount)
    (h : Inv s) : Inv (insertTx s mk).2 := by
  show Inv { s with txs := s.txs ++ [mk s.nextTxId], nextTxId := s.nextTxId + 1 }
  obtain ⟨⟨hpu, hpt, hbound⟩, hcred, hpend⟩ := h
  refine ⟨⟨hpu, ?_, ?_⟩, hcred, ?_⟩
  · rw [List.pairwise_append]
    refine ⟨hpt, List.pairwise_singleton _ _, ?_⟩
    intro a ha b hb
    have hb1 : b = mk s.nextTxId := by simpa using hb
    subst hb1
    rw [hid]
    exact Nat.ne_of_lt (hbound a ha)
  · intro t ht
    rcases List.mem_append.mp ht with ht1 | ht1
    · exact Nat.lt_succ_of_lt (hbound t ht1)
    · have ht2 : t = mk s.nextTxId := by simpa using ht1
      subst ht2
      rw [hid]
      exact Nat.lt_succ_self _
  · intro t ht
    rcases List.mem_append.mp ht with ht1 | ht1
    · exact hpend t ht1
    · have ht2 : t = mk s.nextTxId := by simpa using ht1
      subst ht2
      exact hstat

theorem inv_snd_pair {A : Type} (r : A) (s' : LedgerState) (h : Inv s') :
    Inv (r, s').2 := h

theorem inv_consume (s : LedgerState) (u j : Nat) (ty : String) (d : Nat)
    (h : Inv s) : Inv (consume s u j ty d).2 := by
  simp only [consume]
  split
  · exact h
  next user hfu =>
    split
    · exact h
    next hge =>
      apply inv_snd_pair
      apply inv_insertTx
      · rfl
      · simp
      · exact inv_updateUser_sub s u _ user hfu (by omega) h

theorem inv_addBonus (s : LedgerState) (u : Nat) (c : Nat) (r : String)
    (h : Inv s) : Inv (addBonus s u c r).2 := by
  simp only [addBonus]
  split
  · exact h
  next user hfu =>
    apply inv_snd_pair
    apply inv_insertTx
    · rfl
    · simp
    · exact inv_updateUser_add s u c (by omega) h

theorem inv_createIntent (env : CreateIntentEnv) (s : LedgerState) (u : Nat)
    (p n : String)
    (hok : opOk (.opCreateIntent env u p n) = true)
    (h : Inv s) : Inv (createIntent env s u p n).2 := by
  simp only [createIntent]
  split
  · exact h
  next _user _ =>
    split
    · exact h
    next price _ =>
      split
      · exact h
      · split
        · exact h
        next product hprod =>
          split
          · exact h
          · have hamt : 0 ≤ computeCreditsAmount product.metaCredits p := by
              simp only [opOk, hprod] at hok
              exact of_decide_eq_true hok
            have hIns :
                Inv (insertTx s (fun tid =>
                  { id := tid, type := .PURCHASE, status := .PENDING,
                    amount := computeCreditsAmount product.metaCredits p,
                    userId := u,
                    metadata := [("stripeProductId", product.id),
                                 ("stripePriceId", p),
                                 ("productName", product.name),
                                 ("createdAt", n)] })).2 :=
              inv_insertTx _ _ rfl (fun _ => hamt) h
            split
            · exact h
            · split
              · exact hIns
              · apply inv_snd_pair
                exact inv_updateTx_mk _ _ _ (fun t => rfl)
                  (fun t ht hp => hIns.2.2 t ht hp) hIns

theorem inv_confirm (retrieved : Option PaymentIntent) (s : LedgerState)
    (n : String) (h : Inv s) : Inv (confirm retrieved s n).2 := by
  simp only [confirm]
  split
  · exact h
  next pi =>
    split
    · exact h
    next tid =>
      split
      · exact h
      next tx htx =>
        split
        · exact h
        next hpend =>
          have hpend1 : tx.status = .PENDING := by
            by_contra hc
            exact hpend hc
          have hamt : 0 ≤ tx.amount :=
            h.2.2 tx (List.mem_of_find?_eq_some htx) hpend1
          split
          · split
            · exact h
            next user hfu =>
              apply inv_snd_pair
              apply inv_updateTx_mk
              · exact fun t => rfl
              · simp
              · exact inv_updateUser_add s tx.userId tx.amount hamt h
          · exact h
          · exact h
          · apply inv_snd_pair
            apply inv_updateTx_mk
            · exact fun t => rfl
            · simp
            · exact h

theorem inv_cancel (s : LedgerState) (tid : Nat) (reason : Option String)
    (n : String) (h : Inv s) : Inv (cancel s tid reason n).2 := by
  simp only [cancel]
  split
  · exact h
  next tx htx =>
    split
    · exact h
    · apply inv_snd_pair
      apply inv_updateTx_mk
      · exact fun t => rfl
      · simp
      · exact h

theorem inv_handleSucceeded (s : LedgerState) (pi : PaymentIntent) (n : String)
    (h : Inv s) : Inv (handlePaymentIntentSucceeded s pi n) := by
  simp only [handlePaymentIntentSucceeded]
  split
  · exact h
  next tid =>
    split
    · exact h
    next tx htx =>
      split
      · exact h
      next hpend =>
        have hpend1 : tx.status = .PENDING := by
          by_contra hc
          exact hpend hc
        have hamt : 0 ≤ tx.amount :=
          h.2.2 tx (List.mem_of_find?_eq_some htx) hpend1
        split
        · exact h
        next user hfu =>
          apply inv_updateTx_mk
          · exact fun t => rfl
          · simp
          · exact inv_updateUser_add s tx.userId tx.amount hamt h

theorem inv_handleFailed (s : LedgerState) (pi : PaymentIntent) (n : String)
    (h : Inv s) : Inv (handlePaymentIntentFailed s pi n) := by
  simp only [handlePaymentIntentFailed]
  split
  · exact h
  next tid =>
    split
    · exact h
    · apply inv_updateTx_mk
      · exact fun t => rfl
      · simp
      · exact h

theorem inv_webhook (sc sv : Bool) (s : LedgerState) (ev : WebhookEvent)
    (n : String) (h : Inv s) : Inv (webhook sc sv s ev n).2 := by
  simp only [webhook]
  split
  · exact h
  · split
    · exact h
    · split
      · exact inv_handleSucceeded _ _ _ h
      · exact inv_handleFailed _ _ _ h
      · exact h

theorem inv_step (s : LedgerState) (op : Op) (h : Inv s)
    (hok : opOk op = true) : Inv (step s op) := by
  cases op with
  | opConsume u j ty d => exact inv_consume s u j ty d h
  | opCreateIntent env u p n => exact inv_createIntent env s u p n hok h
  | opConfirm pi n => exact inv_confirm pi s n h
  | opCancel t r n => exact inv_cancel s t r n h
  | opAddBonus u c r => exact inv_addBonus s u c r h
  | opWebhook sc sv ev n => exact inv_webhook sc sv s ev n h

theorem inv_run (s : LedgerState) (ops : List Op) (h : Inv s)
    (hok : ∀ op ∈ ops, opOk op = true) : Inv (run s ops) := by
  induction ops generalizing s with
  | nil => exact h
  | cons op ops ih =>
    exact ih (step s op)
      (inv_step s op h (hok op (List.mem_cons_self op ops)))
      (fun o ho => hok o (List.mem_cons_of_mem op ho))

/-! ## The claims -/

/-- Claim C10: for every interview type and every positive duration,
`getCreditsCost` returns the base cost of the type (1 for TEXT, 2 for
VOICE, 3 for AVATAR, 1 for anything else, as `specBaseCost` words it),
doubled exactly when the duration exceeds 30 minutes. -/
theorem getCreditsCost_matches_spec (ty : String) (d : Nat) (_hd : 0 < d) :
    getCreditsCost ty d =
      if 30 < d then 2 * specBaseCost ty else specBaseCost ty := by
  simp only [getCreditsCost, specBaseCost, beq_iff_eq]
  split_ifs <;> omega

/-- Witness for C10: VOICE at 31 minutes is in the doubled regime. -/
theorem getCreditsCost_matches_spec_witness :
    0 < 31 ∧ getCreditsCost "VOICE" 31 =
      if 30 < 31 then 2 * specBaseCost "VOICE" else specBaseCost "VOICE" :=
  ⟨by decide, getCreditsCost_matches_spec "VOICE" 31 (by decide)⟩

/-- Claim C9: a webhook delivery whose signature does not verify (in
particular also when no webhook secret is configured, in which case no
signature can verify) is rejected before any ledger access: the reply is
not the success acknowledgement and the ledger state is exactly the state
before the call. -/
theorem webhook_bad_signature_rejected (sc : Bool) (s : LedgerState)
    (ev : WebhookEvent) (now : String) :
    (webhook sc false s ev now).2 = s ∧
    (webhook sc false s ev now).1 ≠ .received := by
  cases sc <;> simp [webhook]

/-- Claim C6: consuming with a balance strictly below the computed cost
fails with the insufficient-credits reply carrying the required and
available amounts, and changes nothing. -/
theorem consume_insufficient_credits (s : LedgerState) (uid jid : Nat)
    (ty : String) (d : Nat) (user : User)
    (hfu : findUser s uid = some user)
    (hlt : user.credits < (getCreditsCost ty d : Int)) :
    consume s uid jid ty d =
      (.insufficient (getCreditsCost ty d) user.credits, s) := by
  simp only [consume, hfu]
  rw [if_pos hlt]

/-- Witness for C6: the spec scenario — a 0-credit account consuming VOICE
for 10 minutes fails with required 2, available 0, and no state change. -/
theorem consume_insufficient_credits_witness :
    consume exEmptyState 1 2 "VOICE" 10 = (.insufficient 2 0, exEmptyState) :=
  consume_insufficient_credits exEmptyState 1 2 "VOICE" 10
    { id := 1, credits := 0 } (by decide) (by decide)

/-- Claim C5: consuming with a sufficient balance debits exactly the
computed cost, appends exactly one COMPLETED CONSUMPTION row of amount
`-cost` referencing the job, and the reply carries the new row's id, the
cost, and the old balance minus the cost. -/
theorem consume_success (s : LedgerState) (uid jid : Nat) (ty : String)
    (d : Nat) (user : User)
    (hfu : findUser s uid = some user)
    (hge : (getCreditsCost ty d : Int) ≤ user.credits) :
    (consume s uid jid ty d).1 =
      .ok s.nextTxId (getCreditsCost ty d)
        (user.credits - getCreditsCost ty d) ∧
    (findUser (consume s uid jid ty d).2 uid).map User.credits =
      some (user.credits - getCreditsCost ty d) ∧
    (consume s uid jid ty d).2.txs = s.txs ++
      [{ id := s.nextTxId, type := .CONSUMPTION, status := .COMPLETED,
         amount := -(getCreditsCost ty d : Int), userId := uid,
         jobId := some jid }] := by
  have hnl : ¬ user.credits < (getCreditsCost ty d : Int) := not_lt.mpr hge
  refine ⟨?_, ?_, ?_⟩
  · simp only [consume, hfu]
    rw [if_neg hnl]
    rfl
  · simp only [consume, hfu]
    rw [if_neg hnl]
    show (findUser (updateUser s uid fun u =>
      { u with credits := u.credits - (getCreditsCost ty d : Int) }) uid).map
        User.credits = _
    rw [findUser_updateUser s uid
      (fun u => { u with credits := u.credits - (getCreditsCost ty d : Int) })
      (fun u => rfl), hfu]
    rfl
  · simp only [consume, hfu]
    rw [if_neg hnl]
    rfl

/-- Witness for C5: the spec scenario — a 5-credit account consuming TEXT
for 10 minutes ends with balance 4 and one COMPLETED CONSUMPTION row of
amount -1. -/
theorem consume_success_witness :
    (consume exFiveState 1 2 "TEXT" 10).1 = .ok 0 1 4 ∧
    (findUser (consume exFiveState 1 2 "TEXT" 10).2 1).map User.credits =
      some 4 ∧
    (consume exFiveState 1 2 "TEXT" 10).2.txs =
      [{ id := 0, type := .CONSUMPTION, status := .COMPLETED, amount := -1,
         userId := 1, jobId := some 2 }] :=
  consume_success exFiveState 1 2 "TEXT" 10 { id := 1, credits := 5 }
    (by decide) (by decide)

/-- Claim C2 (code bug): the failure-webhook handler
`handlePaymentIntentFailed` performs its update without checking that the
transaction is still PENDING, so a terminal (here COMPLETED) transaction
is moved to FAILED by a late `payment_intent.payment_failed` delivery —
the claimed terminal monotonicity is violated by the code. -/
theorem webhookFailed_overwrites_terminal_status :
    (findTx exCompletedState 0).map CreditTransaction.status =
      some .COMPLETED ∧
    (findTx (webhook true true exCompletedState
        (.paymentIntentFailed exFailedIntent) "t2").2 0).map
      CreditTransaction.status = some .FAILED := by
  decide

/-- Claim C8 (code bug): the metadata update of
`handlePaymentIntentFailed` does not spread the prior metadata (unlike
every other metadata update in the file): the previously recorded key
`stripeProductId` is dropped and only the four freshly written keys
remain. -/
theorem webhookFailed_replaces_metadata :
    (findTx exCompletedState 0).map
      (fun t => Metadata.get t.metadata "stripeProductId") =
        some (some "prod_1") ∧
    (findTx (webhook true true exCompletedState
        (.paymentIntentFailed exFailedIntent) "t2").2 0).map
      (fun t => Metadata.get t.metadata "stripeProductId") = some none ∧
    (findTx (webhook true true exCompletedState
        (.paymentIntentFailed exFailedIntent) "t2").2 0).map
      (fun t => Metadata.get t.metadata "failureReason") =
        some (some "card declined") := by
  decide

/-- Claim C7: cancellation succeeds exactly while the transaction is
PENDING — it then sets CANCELLED, merges the timestamp and the reason into
the metadata, and touches no balance — and on a transaction already in a
terminal status it fails with the invalid-state reply and changes
nothing. -/
theorem cancel_only_pending (s : LedgerState) (tid : Nat)
    (reason : Option String) (now : String) (tx : CreditTransaction)
    (htx : findTx s tid = some tx) :
    (tx.status = .PENDING →
      (cancel s tid reason now).1 = .ok tid ∧
      (findTx (cancel s tid reason now).2 tid).map CreditTransaction.status =
        some .CANCELLED ∧
      (findTx (cancel s tid reason now).2 tid).map
        (fun t => Metadata.get t.metadata "cancellationReason") =
          some (some (cancellationReasonOf reason)) ∧
      (findTx (cancel s tid reason now).2 tid).map
        (fun t => Metadata.get t.metadata "cancelledAt") = some (some now) ∧
      (cancel s tid reason now).2.users = s.users) ∧
    (tx.status ≠ .PENDING →
      cancel s tid reason now = (.invalidState tx.status, s)) := by
  constructor
  · intro hp
    have hne : ¬ tx.status ≠ .PENDING := by simp [hp]
    have hstate : (cancel s tid reason now).2 =
        updateTx s tid (fun t =>
          { t with status := .CANCELLED,
                   metadata := Metadata.merge tx.metadata
                     [("cancelledAt", now),
                      ("cancellationReason", cancellationReasonOf reason)] }) := by
      simp only [cancel, htx]
      rw [if_neg hne]
    have hfind : findTx (cancel s tid reason now).2 tid =
        some { tx with status := .CANCELLED,
                       metadata := Metadata.merge tx.metadata
                         [("cancelledAt", now),
                          ("cancellationReason", cancellationReasonOf reason)] } := by
      rw [hstate, findTx_updateTx s tid (fun t =>
        { t with status := .CANCELLED,
                 metadata := Metadata.merge tx.metadata
                   [("cancelledAt", now),
                    ("cancellationReason", cancellationReasonOf reason)] })
        (fun t => rfl), htx]
      rfl
    refine ⟨?_, ?_, ?_, ?_, ?_⟩
    · simp only [cancel, htx]
      rw [if_neg hne]
    · rw [hfind]
      rfl
    · rw [hfind]
      exact congrArg some (Metadata.get_merge_right _ _ _ _ rfl)
    · rw [hfind]
      exact congrArg some (Metadata.get_merge_right _ _ _ _ rfl)
    · rw [hstate]
      rfl
  · intro hnp
    simp only [cancel, htx]
    rw [if_pos hnp]

/-- Witness for C7: the PENDING purchase of `exPendingState` is cancelled
with an explicit reason; the row becomes CANCELLED, the reason and
timestamp are recorded, and the users table is untouched. -/
theorem cancel_only_pending_witness :
    (cancel exPendingState 0 (some "changed mind") "t3").1 = .ok 0 ∧
    (findTx (cancel exPendingState 0 (some "changed mind") "t3").2 0).map
      CreditTransaction.status = some .CANCELLED ∧
    (findTx (cancel exPendingState 0 (some "changed mind") "t3").2 0).map
      (fun t => Metadata.get t.metadata "cancellationReason") =
        some (some (cancellationReasonOf (some "changed mind"))) ∧
    (findTx (cancel exPendingState 0 (some "changed mind") "t3").2 0).map
      (fun t => Metadata.get t.metadata "cancelledAt") = some (some "t3") ∧
    (cancel exPendingState 0 (some "changed mind") "t3").2.users =
      exPendingState.users :=
  (cancel_only_pending exPendingState 0 (some "changed mind") "t3"
    { id := 0, type := .PURCHASE, status := .PENDING, amount := 10,
      userId := 1, paymentId := some "pi_1",
      metadata := [("stripeProductId", "prod_1")] } (by decide)).1 rfl

/-- Claim C4 counterexample: with the gateway configured so that price and
product retrieval succeed but charge creation throws, the create-intent
run at this concrete input neither fails before the row is committed (the
state did change) nor compensates the row away (a new PENDING PURCHASE row
remains). -/
theorem createIntent_gateway_failure_leaves_pending_row :
    (createIntent exGatewayFailEnv exEmptyState 1 "price_x" "t0").2 ≠
      exEmptyState ∧
    ∃ t ∈ (createIntent exGatewayFailEnv exEmptyState 1 "price_x" "t0").2.txs,
      t.type = .PURCHASE ∧ t.status = .PENDING ∧ t ∉ exEmptyState.txs := by
  decide

/-- Claim C4 (amended): when the Payment Gateway fails while `createIntent`
is requesting the charge, the already-committed PENDING row is neither
rolled back nor compensated — it remains in the ledger — but it holds no
gateway reference: its `paymentId` is still null (the charge id is only
stored after the gateway call succeeds), so no row ever references a
nonexistent gateway charge. -/
theorem createIntent_gateway_failure_state (env : CreateIntentEnv)
    (s : LedgerState) (uid : Nat) (priceId now : String) (user : User)
    (price : StripePrice) (product : StripeProduct)
    (hfu : findUser s uid = some user)
    (hprice : env.price = some price) (hpa : price.active = true)
    (hprod : env.product = some product) (hda : product.active = true)
    (hnz : computeCreditsAmount product.metaCredits priceId ≠ 0)
    (hfail : env.createResult = none) :
    createIntent env s uid priceId now =
      (.gatewayError,
       { users := s.users,
         txs := s.txs ++
           [{ id := s.nextTxId, type := .PURCHASE, status := .PENDING,
              amount := computeCreditsAmount product.metaCredits priceId,
              userId := uid, jobId := none, paymentId := none,
              metadata := [("stripeProductId", product.id),
                           ("stripePriceId", priceId),
                           ("productName", product.name),
                           ("createdAt", now)] }],
         nextTxId := s.nextTxId + 1 }) := by
  simp only [createIntent, hfu, hprice, hprod, hfail, hpa, hda,
    Bool.not_true, Bool.false_eq_true, if_false]
  rw [if_neg hnz]
  rfl

/-- Witness for C4's amended statement: the concrete gateway-failure run
on the empty one-user ledger ends with exactly the orphaned PENDING row,
whose `paymentId` is null. -/
theorem createIntent_gateway_failure_state_witness :
    createIntent exGatewayFailEnv exEmptyState 1 "price_x" "t0" =
      (.gatewayError,
       { users := [{ id := 1, credits := 0 }],
         txs := [{ id := 0, type := .PURCHASE, status := .PENDING,
                   amount := 10, userId := 1, jobId := none,
                   paymentId := none,
                   metadata := [("stripeProductId", "prod_1"),
                                ("stripePriceId", "price_x"),
                                ("productName", "Pack"),
                                ("createdAt", "t0")] }],
         nextTxId := 1 }) :=
  createIntent_gateway_failure_state exGatewayFailEnv exEmptyState 1
    "price_x" "t0" { id := 1, credits := 0 }
    { active := true, unitAmount := 1000, currency := "brl" }
    { id := "prod_1", name := "Pack", active := true, metaCredits := some 10 }
    (by decide) (by decide) (by decide) (by decide) (by decide) (by decide)
    (by decide)

/-- Claim C3 counterexample: from a well-formed state satisfying the full
invariant (balance 0, empty ledger), the operation sequence that creates a
purchase intent whose gateway product metadata parses to -5 credits (the
handler only rejects the exact amount 0) and then delivers its succeeded
webhook drives the balance to -5: `credits >= 0` does not survive every
operation sequence. -/
theorem credits_can_go_negative :
    Inv exEmptyState ∧
    ¬ (∀ u ∈ (run exEmptyState exNegativeOps).users, 0 ≤ u.credits) := by
  decide

/-- Claim C3 (amended): provided every create-intent operation's computed
credits amount is non-negative (`opOk`, an assumption the code does not
enforce — it rejects only the exact value 0), any sequence of consume,
create-intent, confirm, cancel, add-bonus and webhook operations starting
from a well-formed state keeps every account balance non-negative. -/
theorem credits_nonneg_after_run (s : LedgerState) (ops : List Op)
    (hinv : Inv s) (hops : ∀ op ∈ ops, opOk op = true) :
    ∀ u ∈ (run s ops).users, 0 ≤ u.credits :=
  (inv_run s ops hinv hops).2.1

/-- Witness for C3's amended statement: a mixed sequence — consume,
bonus, intent creation, succeeded webhook, late cancel — run from a
5-credit account keeps the balance non-negative. -/
theorem credits_nonneg_after_run_witness :
    Inv exFiveState ∧ (∀ op ∈ exMixedOps, opOk op = true) ∧
    ∀ u ∈ (run exFiveState exMixedOps).users, 0 ≤ u.credits :=
  ⟨by decide, by decide,
   credits_nonneg_after_run exFiveState exMixedOps (by decide) (by decide)⟩

/-- Either entry point applied to a succeeded payment intent whose
transaction is still PENDING performs the atomic credit-and-complete
update. -/
theorem applySuccess_pending (b : Bool) (pi : PaymentIntent) (now : String)
    (s : LedgerState) (tid : Nat) (tx : CreditTransaction) (user : User)
    (hpi : pi.transactionId = some tid) (hsucc : pi.status = .succeeded)
    (htx : findTx s tid = some tx) (hpend : tx.status = .PENDING)
    (hfu : findUser s tx.userId = some user) :
    applySuccess b pi now s =
      updateTx (updateUser s tx.userId
          (fun u => { u with credits := u.credits + tx.amount })) tid
        (fun t =>
          { t with status := .COMPLETED,
                   metadata := Metadata.merge tx.metadata
                     (successMeta b pi.id now) }) := by
  cases b with
  | false =>
    show (confirm (some pi) s now).2 = _
    simp only [confirm, hpi, htx, hfu, hsucc]
    rw [if_neg (by simp [hpend])]
    rfl
  | true =>
    show handlePaymentIntentSucceeded s pi now = _
    simp only [handlePaymentIntentSucceeded, hpi, htx, hfu, hsucc]
    rw [if_neg (by simp [hpend])]
    rfl

/-- Either entry point applied to a payment intent whose transaction is no
longer PENDING leaves the ledger exactly as it was. -/
theorem applySuccess_terminal (b : Bool) (pi : PaymentIntent) (now : String)
    (s : LedgerState) (tid : Nat) (tx : CreditTransaction)
    (hpi : pi.transactionId = some tid)
    (htx : findTx s tid = some tx) (hterm : tx.status ≠ .PENDING) :
    applySuccess b pi now s = s := by
  cases b with
  | false =>
    show (confirm (some pi) s now).2 = s
    simp only [confirm, hpi, htx]
    rw [if_pos hterm]
  | true =>
    show handlePaymentIntentSucceeded s pi now = s
    simp only [handlePaymentIntentSucceeded, hpi, htx]
    rw [if_pos hterm]

/-- Claim C1: applying the same successful gateway confirmation twice to a
PENDING purchase — by the client-confirmation call, a duplicate webhook
delivery, or one of each, in either order (`b1`, `b2` choose the entry
points) — credits the account exactly once (final balance is the old
balance plus the purchase amount), leaves the transaction COMPLETED, and
the second application is a no-op returning the state reached after the
first. -/
theorem success_confirmation_idempotent (s : LedgerState) (pi : PaymentIntent)
    (tid : Nat) (tx : CreditTransaction) (user : User) (b1 b2 : Bool)
    (t1 t2 : String)
    (hpi : pi.transactionId = some tid) (hsucc : pi.status = .succeeded)
    (htx : findTx s tid = some tx) (hpend : tx.status = .PENDING)
    (hfu : findUser s tx.userId = some user) :
    (findTx (applySuccess b1 pi t1 s) tid).map CreditTransaction.status =
      some .COMPLETED ∧
    (findUser (applySuccess b1 pi t1 s) tx.userId).map User.credits =
      some (user.credits + tx.amount) ∧
    applySuccess b2 pi t2 (applySuccess b1 pi t1 s) =
      applySuccess b1 pi t1 s ∧
    (findUser (applySuccess b2 pi t2 (applySuccess b1 pi t1 s)) tx.userId).map
      User.credits = some (user.credits + tx.amount) := by
  have h1 := applySuccess_pending b1 pi t1 s tid tx user hpi hsucc htx hpend hfu
  have hft : findTx (applySuccess b1 pi t1 s) tid =
      some { tx with status := .COMPLETED,
                     metadata := Metadata.merge tx.metadata
                       (successMeta b1 pi.id t1) } := by
    rw [h1, findTx_updateTx
      (updateUser s tx.userId fun u => { u with credits := u.credits + tx.amount })
      tid
      (fun t =>
        { t with status := .COMPLETED,
                 metadata := Metadata.merge tx.metadata
                   (successMeta b1 pi.id t1) })
      (fun t => rfl)]
    rw [findTx_updateUser, htx]
    rfl
  have hfu1 : (findUser (applySuccess b1 pi t1 s) tx.userId).map User.credits =
      some (user.credits + tx.amount) := by
    rw [h1, findUser_updateTx, findUser_updateUser s tx.userId
      (fun u => { u with credits := u.credits + tx.amount }) (fun u => rfl), hfu]
    rfl
  have hnoop : applySuccess b2 pi t2 (applySuccess b1 pi t1 s) =
      applySuccess b1 pi t1 s :=
    applySuccess_terminal b2 pi t2 _ tid _ hpi hft (by simp)
  exact ⟨by rw [hft]; rfl, hfu1, hnoop, by rw [hnoop]; exact hfu1⟩

/-- Witness for C1: the PENDING 10-credit purchase of `exPendingState` is
confirmed first by its webhook, then by the client confirm call: the
balance rises from 5 to 15 once, the row is COMPLETED, and the second
application changes nothing. -/
theorem success_confirmation_idempotent_witness :
    (findTx (applySuccess true exSucceededIntent "t1" exPendingState) 0).map
      CreditTransaction.status = some .COMPLETED ∧
    (findUser (applySuccess true exSucceededIntent "t1" exPendingState) 1).map
      User.credits = some 15 ∧
    applySuccess false exSucceededIntent "t2"
        (applySuccess true exSucceededIntent "t1" exPendingState) =
      applySuccess true exSucceededIntent "t1" exPendingState ∧
    (findUser (applySuccess false exSucceededIntent "t2"
        (applySuccess true exSucceededIntent "t1" exPendingState)) 1).map
      User.credits = some 15 :=
  success_confirmation_idempotent exPendingState exSucceededIntent 0
    { id := 0, type := .PURCHASE, status := .PENDING, amount := 10,
      userId := 1, paymentId := some "pi_1",
      metadata := [("stripeProductId", "prod_1")] }
    { id := 1, credits := 5 } true false "t1" "t2"
    (by decide) (by decide) (by decide) (by decide) (by decide)

end EntrevistaApi
